import Mathlib

/-!
Shallow embedding of the libtins protocol-codec core (src/ip.cpp, src/eapol.cpp,
src/utils.cpp) and proofs of the specification claims about it.

Buffers are lists of byte values (`List Nat`, each entry intended `< 256`).
Multi-byte wire fields are big-endian unless the C++ writes a host-order value
verbatim, which is modelled for a little-endian host (the code's own use of
`Endian::host_to_be` shows the host order is not assumed big-endian).
-/

namespace Tins

/-- Decidable equality of decode results. -/
instance {ε α : Type} [DecidableEq ε] [DecidableEq α] : DecidableEq (Except ε α) := fun x y =>
  match x, y with
  | .error a, .error b => if h : a = b then isTrue (by simp [h]) else isFalse (by simp [h])
  | .ok a, .ok b => if h : a = b then isTrue (by simp [h]) else isFalse (by simp [h])
  | .error _, .ok _ => isFalse (by simp)
  | .ok _, .error _ => isFalse (by simp)

/-- Big-endian byte pair of a 16-bit value (value truncated to 16 bits). -/
def be16 (v : Nat) : List Nat := [v / 256 % 256, v % 256]

/-- Little-endian byte pair of a 16-bit value, the in-memory layout of a
`uint16_t` on a little-endian host. -/
def le16 (v : Nat) : List Nat := [v % 256, v / 256 % 256]

/-- Big-endian bytes of a 32-bit value. -/
def be32 (v : Nat) : List Nat := [v / 16777216 % 256, v / 65536 % 256, v / 256 % 256, v % 256]

/-- Big-endian bytes of a 64-bit value. -/
def be64 (v : Nat) : List Nat := be32 (v / 4294967296) ++ be32 (v % 4294967296)

/-- Big-endian value of a byte list. -/
def rdBE (l : List Nat) : Nat := l.foldl (fun a b => a * 256 + b % 256) 0

/-- Fixed-width array field: the list truncated or zero-padded to `n` bytes,
as a `memcpy` of a fixed-size `uint8_t[n]` member. -/
def fixedBytes (n : Nat) (l : List Nat) : List Nat :=
  (l.map (· % 256)).take n ++ List.replicate (n - l.length) 0

/-! ## Network-layer header (IP::IP, src/ip.cpp) -/

/-- Error message thrown by IP::IP for short buffers and bad option lengths. -/
def ipNotEnoughMsg : String := "Not enough size for an IP header in the buffer."

/-- Error message thrown by IP::IP when the head-length field is below the fixed minimum. -/
def ipMalformedMsg : String := "Malformed head len field"

/-- Logical fields of `iphdr`. The C++ struct stores multi-byte fields in
network order and converts in every setter/getter; we store host values and
serialize big-endian, which composes to the same wire bytes. -/
structure IPHeader where
  version : Nat
  ihl : Nat
  tos : Nat
  tot_len : Nat
  id : Nat
  frag_off : Nat
  ttl : Nat
  protocol : Nat
  check : Nat
  saddr : Nat
  daddr : Nat
deriving Repr, DecidableEq

/-- Wire bytes of the 20-byte fixed header: version/ihl packed byte (ihl in the
low nibble on a little-endian host), tos, big-endian tot_len, id, frag_off,
ttl, protocol, big-endian checksum and the two addresses in network order. -/
def serializeIPHeader (h : IPHeader) : List Nat :=
  (h.ihl % 16 + h.version % 16 * 16) :: h.tos % 256 ::
    (be16 h.tot_len ++ be16 h.id ++ be16 h.frag_off ++ h.ttl % 256 :: h.protocol % 256 ::
      (be16 h.check ++ be32 h.saddr ++ be32 h.daddr))

/-- Reading the `iphdr` struct back from wire bytes (the `memcpy` in the decode
constructor followed by the accessors). -/
def parseIPHeader (buffer : List Nat) : IPHeader :=
  { version := buffer.getD 0 0 / 16 % 16
    ihl := buffer.getD 0 0 % 16
    tos := buffer.getD 1 0 % 256
    tot_len := rdBE ((buffer.drop 2).take 2)
    id := rdBE ((buffer.drop 4).take 2)
    frag_off := rdBE ((buffer.drop 6).take 2)
    ttl := buffer.getD 8 0 % 256
    protocol := buffer.getD 9 0 % 256
    check := rdBE ((buffer.drop 10).take 2)
    saddr := rdBE ((buffer.drop 12).take 4)
    daddr := rdBE ((buffer.drop 16).take 4) }

/-- One IP option: the three bit-fields of the type byte plus the raw
`optional_data` vector (whose first byte, when present, is the length byte). -/
structure IPOption where
  copied : Nat
  op_class : Nat
  number : Nat
  optional_data : List Nat
deriving Repr, DecidableEq

/-- Packed option type byte (bit-fields `number:5, op_class:2, copied:1` on a
little-endian host, from the ip.h struct the decode switch relies on). -/
def IPOption.typeByte (o : IPOption) : Nat :=
  o.number % 32 + o.op_class % 4 * 32 + o.copied % 2 * 128

/-- IP::IPOption::write — the type byte followed by the raw optional data. -/
def IPOption.write (o : IPOption) : List Nat := o.typeByte :: o.optional_data

/-- Option numbers of the multibyte cases in the decode switch of IP::IP
(SEC, LSSR, TIMESTAMP, EXTSEC, RR, SID, SSRR, MTUPROBE, MTUREPLY, EIP, TR,
ADDEXT, RTRALT, SDB, DPS, UMP, QS). Modelled from the spec: ip.h is not under
src/, so the enum values are the standard IP option numbers those names denote. -/
def multibyteOptionNumbers : List Nat := [2, 3, 4, 5, 7, 8, 9, 11, 12, 17, 18, 19, 20, 21, 23, 24, 25]

/-- Option-parsing loop of IP::IP on the option region (bytes between the fixed
header and the computed header boundary), written with an explicit iteration
bound for structural recursion: every iteration of the C++ loop advances the
pointer by at least one byte, so a bound equal to the region length (as passed
by `parseOptions`) is never exhausted. Stops at the end of the region or at a
zero type byte; a multibyte option reads the next byte as a length `L`, rejects
a missing or zero length byte, rejects when `L - 1` exceeds the bytes remaining
counted from the length byte, and otherwise captures `L - 1` bytes starting at
the length byte, advancing past exactly those bytes. -/
def parseOptionsF : Nat → List Nat → Except String (List IPOption)
  | _, [] => .ok []
  | 0, _ :: _ => .ok []
  | fuel + 1, b :: rest =>
    if b = 0 then .ok []
    else if b % 32 ∈ multibyteOptionNumbers then
      match rest with
      | [] => .error ipNotEnoughMsg
      | l :: rest2 =>
        if l = 0 then .error ipNotEnoughMsg
        else
          let dataSize := l - 1
          if 0 < dataSize then
            if rest2.length + 1 < dataSize then .error ipNotEnoughMsg
            else
              match parseOptionsF fuel (rest2.drop (dataSize - 1)) with
              | .error e => .error e
              | .ok opts =>
                .ok (⟨b / 128 % 2, b / 32 % 4, b % 32, l :: rest2.take (dataSize - 1)⟩ :: opts)
          else
            match parseOptionsF fuel (l :: rest2) with
            | .error e => .error e
            | .ok opts => .ok (⟨b / 128 % 2, b / 32 % 4, b % 32, []⟩ :: opts)
    else
      match parseOptionsF fuel rest with
      | .error e => .error e
      | .ok opts => .ok (⟨b / 128 % 2, b / 32 % 4, b % 32, []⟩ :: opts)

/-- Option-parsing loop at its adequate iteration bound. -/
def parseOptions (region : List Nat) : Except String (List IPOption) :=
  parseOptionsF region.length region

/-- In-memory IP PDU state: the fixed header, the option list, the two tracked
option-size fields, and the optional nested unit. The nested decoders are
external collaborators; the nested unit is modelled as its protocol tag and
raw payload bytes. -/
structure IP where
  hdr : IPHeader
  options : List IPOption
  options_size : Nat
  padded_options_size : Nat
  inner : Option (Nat × List Nat)
deriving Repr, DecidableEq

/-- Fixed-header validation prefix of the IP decode constructor: buffer at
least 20 bytes, buffer at least `ihl * 4` bytes, `ihl * 4` at least 20. -/
def IP.checkFixedHeader (buffer : List Nat) : Except String IPHeader :=
  if buffer.length < 20 then .error ipNotEnoughMsg
  else
    let hdr := parseIPHeader buffer
    if buffer.length < hdr.ihl * 4 then .error ipNotEnoughMsg
    else if hdr.ihl * 4 < 20 then .error ipMalformedMsg
    else .ok hdr

/-- Accumulated `_options_size` over decoded options (one type byte plus the
captured data per option). -/
def optionsSizeOf (opts : List IPOption) : Nat :=
  opts.foldl (fun a o => a + o.optional_data.length + 1) 0

/-- IP::IP(const uint8_t*, uint32_t): validate the fixed header, parse the
option region, and treat any bytes past the header boundary as the payload of
the nested unit selected by the protocol number. -/
def IP.decode (buffer : List Nat) : Except String IP :=
  match IP.checkFixedHeader buffer with
  | .error e => .error e
  | .ok hdr =>
    let hlen4 := hdr.ihl * 4
    match parseOptions ((buffer.drop 20).take (hlen4 - 20)) with
    | .error e => .error e
    | .ok opts =>
      let payload := buffer.drop hlen4
      .ok { hdr := hdr, options := opts, options_size := optionsSizeOf opts,
            padded_options_size := hlen4 - 20,
            inner := if payload.length ≠ 0 then some (hdr.protocol, payload) else none }

/-- IP state after init_ip_fields (crafting constructor with zero addresses). -/
def IP.defaultFields : IP :=
  { hdr := { version := 4, ihl := 0, tos := 0, tot_len := 0, id := 1, frag_off := 0,
             ttl := 128, protocol := 0, check := 0, saddr := 0, daddr := 0 },
    options := [], options_size := 0, padded_options_size := 0, inner := none }

/-- IP::set_option: append the option (data-carrying options store the raw data
length as the first `optional_data` byte, truncated to a byte by push_back),
bump `_options_size` and recompute the 4-byte-aligned `_padded_options_size`. -/
def IP.set_option (ip : IP) (copied op_class number : Nat) (data : List Nat) : IP :=
  let optData := if data.length ≠ 0 then data.length % 256 :: data.map (· % 256) else []
  let dataSize := if data.length ≠ 0 then data.length + 1 else 0
  let osz := ip.options_size + 1 + (if optData ≠ [] then dataSize else 0)
  let padding := osz % 4
  { ip with options := ip.options ++ [⟨copied, op_class, number, optData⟩],
            options_size := osz,
            padded_options_size := if padding ≠ 0 then osz - padding + 4 else osz }

/-- IP::set_sec_option — a copied control-class SEC (number 2) option. -/
def IP.set_sec_option (ip : IP) (data : List Nat) : IP := ip.set_option 1 0 2 data

/-- IP::header_size — fixed header plus padded options. -/
def IP.header_size (ip : IP) : Nat := 20 + ip.padded_options_size

/-! ## Checksum engine (Utils, src/utils.cpp) -/

/-- While loop of Utils::do_checksum: sum of big-endian 16-bit words taken
pairwise from the front, leaving a dangling final byte unpaired. -/
def sumWordsBE : List Nat → Nat
  | b0 :: b1 :: rest => b0 % 256 * 256 + b1 % 256 + sumWordsBE rest
  | _ => 0

/-- Utils::do_checksum over the half-open byte range: the 32-bit accumulator of
the big-endian words, an odd-length range contributing its final byte shifted
into the high byte of a virtual last word, with no carry folding and no
complement. -/
def do_checksum (bytes : List Nat) : Nat :=
  let padding := if bytes.length % 2 = 1 then bytes.getLast?.getD 0 % 256 * 256 else 0
  (sumWordsBE bytes + padding) % 4294967296

/-- Carry-folding loop used by IP::write_serialization, written with an explicit
iteration bound for structural recursion: each iteration strictly decreases any
value of 65536 or more, so a bound equal to the value itself is never
exhausted. -/
def foldCarriesF : Nat → Nat → Nat
  | 0, v => v
  | fuel + 1, v => if 65536 ≤ v then foldCarriesF fuel (v % 65536 + v / 65536) else v

/-- Carry-folding loop of IP::write_serialization: fold bits above 15 back into
the low 16 bits until none remain. -/
def foldCarries (v : Nat) : Nat := foldCarriesF v v

/-- Overwrite `vals.length` bytes of `l` starting at offset `i`. -/
def listSet (l : List Nat) (i : Nat) (vals : List Nat) : List Nat :=
  l.take i ++ vals ++ l.drop (i + vals.length)

/-- Concatenated wire bytes of the option list. -/
def writeOptionsBytes (opts : List IPOption) : List Nat :=
  opts.foldr (fun o acc => o.write ++ acc) []

/-- IP::write_serialization: update protocol from the nested unit's flag (IP-in-IP
for a nested IP), set tot_len to the passed size and head_len from header_size,
write the fixed header, the options and the zero padding; when a parent exists
and the stored checksum is zero, fold-and-complement the checksum of the
header+options region into the output buffer and reset the in-memory checksum
field to zero. Returns the mutated in-memory state and the output bytes. -/
def IP.write_serialization (ip : IP) (total_sz : Nat) (parent : Bool) : IP × List Nat :=
  let hdr1 := match ip.inner with
    | some (flag, _) => { ip.hdr with protocol := (if flag = 0 then 4 else flag) % 256 }
    | none => ip.hdr
  let hdr2 := { hdr1 with tot_len := total_sz % 65536, ihl := ip.header_size / 4 % 16 }
  let bytes := serializeIPHeader hdr2 ++ writeOptionsBytes ip.options
      ++ List.replicate (ip.padded_options_size - ip.options_size) 0
  if parent ∧ hdr2.check = 0 then
    let c := foldCarries (do_checksum (bytes.take (20 + ip.padded_options_size)))
    ({ ip with hdr := { hdr2 with check := 0 } }, listSet bytes 10 (be16 (65535 - c)))
  else
    ({ ip with hdr := hdr2 }, bytes)

/-- Modelled from the spec: the outermost serialize entry point of the abstract
Protocol Unit (pdu.cpp is not under src/). Per the component overview and the
write contract, the outermost call passes the unit's total size and a null
parent; with no nested unit the total size is header_size. -/
def IP.serialize (ip : IP) : IP × List Nat := ip.write_serialization ip.header_size false

/-- Modelled from the spec: PDU::clone_inner_pdu (pdu.cpp is not under src/)
independently decodes the nested unit from the payload bytes; the unrecognized
protocols fall back to an opaque raw-bytes unit, so the clone is modelled as a
capture of the byte range it was given. -/
def clone_inner_pdu (bytes : List Nat) : Option (List Nat) := some bytes

/-- IP::clone_packet: reject a buffer shorter than the fixed header or than
`ihl * 4`; when bytes remain past `ihl * 4`, clone the nested unit from offset
20 with the physical remainder; construct the outer unit from the buffer
truncated to `min(total_sz, tot_len * 4)` and attach the nested unit. The IP
constructor may throw, which propagates (the Except layer); a failed nested
clone or failed size checks yield a null result (`none`). -/
def IP.clone_packet (buffer : List Nat) : Except String (Option IP) :=
  if buffer.length < 20 then .ok none
  else
    let sz := (buffer.getD 0 0 % 16) * 4
    if buffer.length < sz then .ok none
    else
      let child := if buffer.length > sz then clone_inner_pdu (buffer.drop 20) else none
      if buffer.length > sz ∧ child = none then .ok none
      else
        let bound := min buffer.length (rdBE ((buffer.drop 2).take 2) * 4)
        match IP.decode (buffer.take bound) with
        | .error e => .error e
        | .ok cloned => .ok (some { cloned with inner := child.map (fun c => (0, c)) })

/-- Outer-unit size bound used by IP::clone_packet when constructing the clone:
the minimum of the physical buffer size and the big-endian tot_len field
multiplied by `sizeof(uint32_t)`. -/
def IP.cloneBound (buffer : List Nat) : Nat :=
  min buffer.length (rdBE ((buffer.drop 2).take 2) * 4)

/-! ## Authentication header family (EAPOL, src/eapol.cpp) -/

/-- Error message of the EAPOL decode constructors. -/
def eapolNotEnoughMsg : String := "Not enough size for an EAPOL header in the buffer."

/-- EAPOLTYPE discriminants. Modelled from the spec: eapol.h is not under
src/; the three named constants RC4, RSN and EAPOL_WPA select the two variants. -/
def eRC4 : Nat := 1
/-- RSN discriminant value (see eRC4). -/
def eRSN : Nat := 2
/-- EAPOL_WPA discriminant value (see eRC4). -/
def eWPA : Nat := 254

/-- Fixed RSN information-element tag written before a serialized information
element (Dot11::RSN; dot11.h is not under src/, the standard RSN element id). -/
def dot11RSN : Nat := 48

/-- Fields of `eapolhdr`: the shared 4-byte envelope (version, packet type,
16-bit body length) plus the variant discriminant byte that heads the body.
The struct layout is modelled from the spec since eapol.h is not under src/. -/
structure EAPOLHeader where
  version : Nat
  packet_type : Nat
  length : Nat
  ptype : Nat
deriving Repr, DecidableEq

/-- In-memory bytes of `eapolhdr` on a little-endian host. The 16-bit length
member is stored by EAPOL::length without a byte-order conversion, so the
`memcpy` in EAPOL::write_serialization emits it in host order. -/
def serializeEAPOLHeader (h : EAPOLHeader) : List Nat :=
  h.version % 256 :: h.packet_type % 256 :: (le16 h.length ++ [h.ptype % 256])

/-- Reading `eapolhdr` back from a buffer (the base-class decode `memcpy`), with
the length interpreted in the same host order it is stored in. -/
def parseEAPOLHeader (buffer : List Nat) : EAPOLHeader :=
  { version := buffer.getD 0 0 % 256
    packet_type := buffer.getD 1 0 % 256
    length := buffer.getD 2 0 % 256 + buffer.getD 3 0 % 256 * 256
    ptype := buffer.getD 4 0 % 256 }

/-- Fields of `rc4hdr`, the fixed body of the stream-cipher variant. Modelled
from the spec (eapol.h is not under src/): key-length (16-bit), replay counter
(16-bit, per the setter width), a 16-byte key IV, the packed key index/flag
byte, and a 16-byte key signature — 37 bytes, stored big-endian through the
`Endian::host_to_be` setters. -/
structure RC4Header where
  key_length : Nat
  replay_counter : Nat
  key_iv : List Nat
  key_index : Nat
  key_flag : Nat
  key_sign : List Nat
deriving Repr, DecidableEq

/-- Wire bytes of `rc4hdr` (key index in the low 7 bits, flag in the top bit). -/
def serializeRC4Header (h : RC4Header) : List Nat :=
  be16 h.key_length ++ be16 h.replay_counter ++ fixedBytes 16 h.key_iv
    ++ (h.key_index % 128 + h.key_flag % 2 * 128) :: fixedBytes 16 h.key_sign

/-- Reading `rc4hdr` back from the body bytes. -/
def parseRC4Header (body : List Nat) : RC4Header :=
  { key_length := rdBE (body.take 2)
    replay_counter := rdBE ((body.drop 2).take 2)
    key_iv := fixedBytes 16 (body.drop 4)
    key_index := body.getD 20 0 % 128
    key_flag := body.getD 20 0 / 128 % 2
    key_sign := fixedBytes 16 (body.drop 21) }

/-- Stream-cipher variant state: envelope, fixed body and the trailing key. -/
structure RC4EAPOL where
  env : EAPOLHeader
  body : RC4Header
  key : List Nat
deriving Repr, DecidableEq

/-- RC4EAPOL::RC4EAPOL(const uint8_t*, uint32_t): the base class copies the
envelope (requiring 5 bytes), the fixed 37-byte body follows, and the trailing
bytes are captured as the key exactly when their count equals the declared
key-length field; otherwise the key is left empty with no error. -/
def RC4EAPOL.decode (buffer : List Nat) : Except String RC4EAPOL :=
  if buffer.length < 5 then .error eapolNotEnoughMsg
  else
    let env := parseEAPOLHeader buffer
    let rest := buffer.drop 5
    if rest.length < 37 then .error eapolNotEnoughMsg
    else
      let body := parseRC4Header (rest.take 37)
      let rest2 := rest.drop 37
      .ok { env := env, body := body,
            key := if rest2.length = body.key_length then rest2 else [] }

/-- Declared key-length field as the RC4 decode reads it from a buffer (the
big-endian pair at offsets 5 and 6). -/
def rc4DeclaredKeyLength (buffer : List Nat) : Nat := rdBE ((buffer.drop 5).take 2)

/-- Fields of `rsnhdr`, the fixed body of the robust-security-network variant.
Modelled from the spec (eapol.h is not under src/): two key-info bytes holding
the key-type flag among other bits, key-length (16-bit), replay counter
(64-bit), a 32-byte nonce, a 16-byte key IV, the 64-bit receive-sequence
counter and key id, a 16-byte message-integrity code and the 16-bit WPA
length — 94 bytes, multi-byte fields big-endian through the setters. -/
structure RSNHeader where
  key_t : Nat
  info : Nat
  key_length : Nat
  replay_counter : Nat
  nonce : List Nat
  key_iv : List Nat
  rsc : Nat
  id : Nat
  mic : List Nat
  wpa_length : Nat
deriving Repr, DecidableEq

/-- Wire bytes of `rsnhdr` (the key-type flag packed as the low bit of the
key-info pair; the exact bit position is immaterial to the claims). -/
def serializeRSNHeader (h : RSNHeader) : List Nat :=
  be16 (h.info % 32768 * 2 + h.key_t % 2) ++ be16 h.key_length ++ be64 h.replay_counter
    ++ fixedBytes 32 h.nonce ++ fixedBytes 16 h.key_iv ++ be64 h.rsc ++ be64 h.id
    ++ fixedBytes 16 h.mic ++ be16 h.wpa_length

/-- Reading `rsnhdr` back from the body bytes. -/
def parseRSNHeader (body : List Nat) : RSNHeader :=
  { key_t := body.getD 1 0 % 2
    info := rdBE (body.take 2) / 2
    key_length := rdBE ((body.drop 2).take 2)
    replay_counter := rdBE ((body.drop 4).take 8)
    nonce := fixedBytes 32 (body.drop 12)
    key_iv := fixedBytes 16 (body.drop 44)
    rsc := rdBE ((body.drop 60).take 8)
    id := rdBE ((body.drop 68).take 8)
    mic := fixedBytes 16 (body.drop 76)
    wpa_length := rdBE ((body.drop 92).take 2) }

/-- Robust-security-network variant state. -/
structure RSNEAPOL where
  env : EAPOLHeader
  body : RSNHeader
  key : List Nat
deriving Repr, DecidableEq

/-- RSNEAPOL::RSNEAPOL(): zeroed body under the fixed crafted envelope
(version 1, packet type 0x03, zero length, RSN discriminant). -/
def RSNEAPOL.defaultFields : RSNEAPOL :=
  { env := { version := 1, packet_type := 3, length := 0, ptype := eRSN },
    body := { key_t := 0, info := 0, key_length := 0, replay_counter := 0, nonce := [],
              key_iv := [], rsc := 0, id := 0, mic := [], wpa_length := 0 },
    key := [] }

/-- RSNEAPOL::RSNEAPOL(const uint8_t*, uint32_t): delegates to the crafting
base constructor EAPOL(0x03, RSN) — installing the fixed envelope instead of
copying the buffer's first bytes — then reads the 94-byte fixed body past the
envelope and captures the trailing bytes as the key exactly when their count
equals the declared WPA-length field. Callers reach it through
EAPOL::from_bytes, which has already required the 5 envelope bytes. -/
def RSNEAPOL.decode (buffer : List Nat) : Except String RSNEAPOL :=
  let rest := buffer.drop 5
  if rest.length < 94 then .error eapolNotEnoughMsg
  else
    let body := parseRSNHeader (rest.take 94)
    let rest2 := rest.drop 94
    .ok { env := { version := 1, packet_type := 3, length := 0, ptype := eRSN },
          body := body,
          key := if rest2.length = body.wpa_length then rest2 else [] }

/-- RSNEAPOL::key setter: store the raw key and clear the key-type flag. -/
def RSNEAPOL.setKey (r : RSNEAPOL) (k : List Nat) : RSNEAPOL :=
  { r with key := k, body := { r.body with key_t := 0 } }

/-- RSNEAPOL::rsn_information: store the serialized information element
(RSNInformation::serialize is outside src/, so the serialized bytes are taken
as given) and set the key-type flag. -/
def RSNEAPOL.rsn_information (r : RSNEAPOL) (serialized : List Nat) : RSNEAPOL :=
  { r with key := serialized, body := { r.body with key_t := 1 } }

/-- RSNEAPOL::header_size — envelope, fixed body, key, plus the two framing
bytes when the key-type flag selects the information-element interpretation. -/
def RSNEAPOL.header_size (r : RSNEAPOL) : Nat :=
  5 + 94 + r.key.length + (if r.body.key_t ≠ 0 ∧ r.key.length ≠ 0 then 2 else 0)

/-- RSNEAPOL::write_body: with a non-empty key, a cleared key-type flag sets
key-length to the constant 32 and WPA-length to the key size, while a set flag
zeroes key-length and sets WPA-length to the key size plus two; then the body
struct is copied out, followed (only in the information-element case) by the
RSN tag and the key size truncated to a byte, and the key bytes. Returns the
mutated state and the body bytes. -/
def RSNEAPOL.write_body (r : RSNEAPOL) : RSNEAPOL × List Nat :=
  let b := r.body
  let b2 := if r.key.length ≠ 0 then
              if b.key_t = 0 then
                { b with key_length := 32, wpa_length := r.key.length % 65536 }
              else
                { b with key_length := 0, wpa_length := (r.key.length + 2) % 65536 }
            else b
  let prefix2 := if b2.key_t ≠ 0 ∧ r.key.length ≠ 0 then [dot11RSN, r.key.length % 256] else []
  ({ r with body := b2 }, serializeRSNHeader b2 ++ prefix2 ++ r.key)

/-- RC4EAPOL::header_size — envelope, fixed body and key. -/
def RC4EAPOL.header_size (r : RC4EAPOL) : Nat := 5 + 37 + r.key.length

/-- RC4EAPOL::write_body: a non-empty key overwrites the key-length field with
the key size before the body struct and the key bytes are copied out. -/
def RC4EAPOL.write_body (r : RC4EAPOL) : RC4EAPOL × List Nat :=
  let b2 := if r.key.length ≠ 0 then { r.body with key_length := r.key.length % 65536 }
            else r.body
  ({ r with body := b2 }, serializeRC4Header b2 ++ r.key)

/-- EAPOL::write_serialization for the stream-cipher variant: when the stored
body-length is zero it is set to the header size minus the version, length and
type bytes, then the envelope struct is copied out — the 16-bit length in host
order — followed by the variant body. -/
def RC4EAPOL.write_serialization (r : RC4EAPOL) : RC4EAPOL × List Nat :=
  let sz := r.header_size
  let env2 := if r.env.length = 0 then { r.env with length := (sz - 4) % 65536 } else r.env
  let (r2, body) := RC4EAPOL.write_body { r with env := env2 }
  (r2, serializeEAPOLHeader env2 ++ body)

/-- Decoded variant sum for the EAPOL dispatcher. -/
inductive EAPOLVariant where
  | rc4 (r : RC4EAPOL)
  | rsn (r : RSNEAPOL)
deriving Repr, DecidableEq

/-- EAPOL::from_bytes: require the envelope, inspect the discriminant byte and
construct the matching variant; an unrecognized discriminant returns a null
pointer (`none`), not an error. -/
def EAPOL.from_bytes (buffer : List Nat) : Except String (Option EAPOLVariant) :=
  if buffer.length < 5 then .error eapolNotEnoughMsg
  else if buffer.getD 4 0 % 256 = eRC4 then (RC4EAPOL.decode buffer).map (fun r => some (.rc4 r))
  else if buffer.getD 4 0 % 256 = eRSN ∨ buffer.getD 4 0 % 256 = eWPA then
    (RSNEAPOL.decode buffer).map (fun r => some (.rsn r))
  else .ok none

/-! ## Spec-side description of the checksum primitive (for the refinement claim) -/

/-- Spec-side word list of a byte range, following the spec's words: the
big-endian 16-bit words across the range, with an odd-length range contributing
its final dangling byte left-shifted into the high byte of a virtual last word. -/
def checksumWordsBE : List Nat → List Nat
  | b0 :: b1 :: rest => (b0 % 256 * 256 + b1 % 256) :: checksumWordsBE rest
  | [b] => [b % 256 * 256]
  | [] => []

/-- Spec-side checksum, following the spec's words: the 32-bit accumulator of
those words, with no carry folding and no bitwise complement. -/
def checksumSpec (bytes : List Nat) : Nat := (checksumWordsBE bytes).sum % 4294967296

/-! ## Claim theorems -/

/-- Helper: the word-list sum of the spec equals the source loop's word sum
plus the odd-tail padding term. -/
lemma sumWords_spec_eq : ∀ bytes : List Nat,
    (checksumWordsBE bytes).sum
      = sumWordsBE bytes + (if bytes.length % 2 = 1 then bytes.getLast?.getD 0 % 256 * 256 else 0) := by
  intro bytes
  induction bytes using checksumWordsBE.induct with
  | case1 b0 b1 rest ih =>
      cases rest with
      | nil => simp [checksumWordsBE, sumWordsBE]
      | cons c cs =>
          have hlen : (b0 :: b1 :: c :: cs).length % 2 = (c :: cs).length % 2 := by
            simp [List.length_cons]; omega
          have hlast : (b0 :: b1 :: c :: cs).getLast? = (c :: cs).getLast? := by
            simp [List.getLast?_cons_cons]
          rw [show checksumWordsBE (b0 :: b1 :: c :: cs)
                = (b0 % 256 * 256 + b1 % 256) :: checksumWordsBE (c :: cs) from rfl,
              List.sum_cons, ih,
              show sumWordsBE (b0 :: b1 :: c :: cs)
                = b0 % 256 * 256 + b1 % 256 + sumWordsBE (c :: cs) from rfl,
              hlen, hlast]
          omega
  | case2 b => simp [checksumWordsBE, sumWordsBE]
  | case3 => simp [checksumWordsBE, sumWordsBE]

/-- C7: for every half-open byte range, the checksum primitive returns exactly
the 32-bit accumulator of the range's big-endian 16-bit words, an odd-length
range contributing its final dangling byte shifted into the high byte of a
virtual last word, with no carry folding and no final complement — the source
loop coincides with the spec-side description on every byte list. -/
theorem c7_checksum_primitive : ∀ bytes : List Nat, do_checksum bytes = checksumSpec bytes := by
  intro bytes
  simp [do_checksum, checksumSpec, sumWords_spec_eq]

/-- C1: the round-trip property fails on the code. For the validly constructed
header with the single SEC option carrying data `[1,2,3,4]`, the serializer
writes the option length byte as the raw data length (4) while the decoder
treats the length byte as counting itself, captures `length - 1` bytes starting
at the length byte, and advances by that amount — so decoding the serialized
bytes yields two corrupted options instead of the original one, and
`decode(serialize(h))` differs from `h` in its option list. -/
theorem c1_option_roundtrip_fails :
    (IP.defaultFields.set_sec_option [1, 2, 3, 4]).options
        = [⟨1, 0, 2, [4, 1, 2, 3, 4]⟩]
    ∧ (IP.decode ((IP.defaultFields.set_sec_option [1, 2, 3, 4]).serialize).2).map IP.options
        = .ok [⟨1, 0, 2, [4, 1, 2]⟩, ⟨0, 0, 3, [4, 0, 0]⟩]
    ∧ (IP.decode ((IP.defaultFields.set_sec_option [1, 2, 3, 4]).serialize).2).map IP.options
        ≠ .ok (IP.defaultFields.set_sec_option [1, 2, 3, 4]).options := by
  refine ⟨by decide, by decide, by decide⟩

/-- C6: on a 40-byte buffer whose header declares `ihl = 5` and total length 28,
clone_packet constructs the outer unit from `min(40, 28 * 4) = 40` bytes — the
buffer's physical length, not the header-declared 28 bytes — because the code
multiplies the byte-valued total-length field by `sizeof(uint32_t)`; the nested
unit is likewise cloned from the 20-byte physical remainder (including the 12
padding bytes past the declared length). -/
theorem c6_clone_bound_is_physical :
    IP.cloneBound (69 :: 0 :: 0 :: 28 :: List.replicate 36 0) = 40
    ∧ rdBE (((69 :: 0 :: 0 :: 28 :: List.replicate 36 0).drop 2).take 2) = 28
    ∧ (69 :: 0 :: 0 :: 28 :: List.replicate 36 0).length = 40
    ∧ (IP.clone_packet (69 :: 0 :: 0 :: 28 :: List.replicate 36 0)).map
          (Option.map (fun ip => ip.inner.map (fun p => p.2.length)))
        = .ok (some (some 20))
    ∧ (40 : Nat) ≠ 28 := by
  refine ⟨by decide, by decide, by decide, by decide, by decide⟩

/-- C8: the 2-byte body-length of the envelope is not written big-endian.
EAPOL::length stores the value without Endian::host_to_be (unlike every other
16-bit setter in the family) and EAPOL::write_serialization copies the struct
verbatim, so on a little-endian host the stream-cipher unit with body-length
0x0102 serializes its first four bytes as version, packet type and the length
in little-endian order — `[1, 3, 2, 1]`, not the big-endian `[1, 3, 1, 2]`. -/
theorem c8_envelope_length_host_order :
    (RC4EAPOL.write_serialization
        { env := { version := 1, packet_type := 3, length := 258, ptype := eRC4 },
          body := { key_length := 0, replay_counter := 0, key_iv := [], key_index := 0,
                    key_flag := 0, key_sign := [] },
          key := [] }).2.take 4
      = 1 :: 3 :: le16 258
    ∧ 1 :: 3 :: le16 258 = [1, 3, 2, 1]
    ∧ 1 :: 3 :: le16 258 ≠ 1 :: 3 :: be16 258 := by
  refine ⟨by decide, by decide, by decide⟩

/-- C5: the fixed-header stage of the network-layer decode rejects exactly the
buffers that are shorter than the 20-byte fixed header, shorter than
`head-length-in-words * 4`, or whose `head-length-in-words * 4` is below 20;
an error at that stage is the error of the whole decode (so no unit is
returned), and otherwise the stage accepts the parsed fixed header. -/
theorem c5_fixed_header_validation :
    ∀ buffer : List Nat,
      ((IP.checkFixedHeader buffer).isOk = false ↔
        (buffer.length < 20 ∨ buffer.length < (parseIPHeader buffer).ihl * 4
          ∨ (parseIPHeader buffer).ihl * 4 < 20))
      ∧ (∀ e, IP.checkFixedHeader buffer = .error e → IP.decode buffer = .error e)
      ∧ (∀ hdr, IP.checkFixedHeader buffer = .ok hdr → hdr = parseIPHeader buffer) := by
  intro buffer
  refine ⟨?_, ?_, ?_⟩
  · dsimp only [IP.checkFixedHeader]
    split_ifs with h1 h2 h3 <;> simp_all [Except.isOk, Except.toBool]
  · intro e he
    unfold IP.decode
    rw [he]
  · intro hdr hh
    dsimp only [IP.checkFixedHeader] at hh
    split_ifs at hh <;> simp_all

/-- C5 witness: a 3-byte buffer is rejected by the fixed-header stage and the
whole decode fails with the size error. -/
theorem c5_fixed_header_validation_witness :
    (IP.checkFixedHeader [1, 2, 3]).isOk = false
    ∧ IP.decode [1, 2, 3] = .error ipNotEnoughMsg :=
  ⟨(c5_fixed_header_validation [1, 2, 3]).1.mpr (Or.inl (by decide)),
   (c5_fixed_header_validation [1, 2, 3]).2.1 ipNotEnoughMsg (by decide)⟩

/-- Helper: the RSN decode constructor installs the fixed crafted envelope. -/
lemma rsn_decode_env (buffer : List Nat) (r : RSNEAPOL)
    (h : RSNEAPOL.decode buffer = .ok r) :
    r.env = { version := 1, packet_type := 3, length := 0, ptype := eRSN } := by
  simp only [RSNEAPOL.decode] at h
  split at h
  · simp at h
  · simp only [Except.ok.injEq] at h
    subst h
    rfl

/-- C9: every robust-security-network variant produced by the decode
dispatcher carries envelope version 1, packet type 0x03, zero stored length and
the RSN discriminant, whatever the envelope bytes of the buffer were — the
decode constructor delegates to the crafting constructor EAPOL(0x03, RSN)
instead of copying the buffer's first four bytes. -/
theorem c9_rsn_decode_fixed_envelope :
    ∀ (buffer : List Nat) (r : RSNEAPOL), EAPOL.from_bytes buffer = .ok (some (.rsn r)) →
      r.env = { version := 1, packet_type := 3, length := 0, ptype := eRSN } := by
  intro buffer r h
  unfold EAPOL.from_bytes at h
  split_ifs at h with h1 h2 h3
  · cases hc : RC4EAPOL.decode buffer <;> rw [hc] at h <;> simp [Except.map] at h
  · cases hc : RSNEAPOL.decode buffer <;> rw [hc] at h <;> simp [Except.map] at h
    exact h ▸ rsn_decode_env buffer _ hc
  · simp at h

/-- C9 witness: a buffer whose envelope bytes are all 9 (version 9, packet
type 9, length 0x0909) but whose discriminant selects RSN decodes to a unit
with the fixed crafted envelope. -/
theorem c9_rsn_decode_fixed_envelope_witness :
    ∃ r : RSNEAPOL,
      EAPOL.from_bytes (List.replicate 4 9 ++ 2 :: List.replicate 94 0) = .ok (some (.rsn r))
      ∧ r.env = { version := 1, packet_type := 3, length := 0, ptype := eRSN } := by
  refine ⟨{ env := { version := 1, packet_type := 3, length := 0, ptype := eRSN },
            body := { key_t := 0, info := 0, key_length := 0, replay_counter := 0,
                      nonce := List.replicate 32 0, key_iv := List.replicate 16 0,
                      rsc := 0, id := 0, mic := List.replicate 16 0, wpa_length := 0 },
            key := [] }, by decide, ?_⟩
  exact c9_rsn_decode_fixed_envelope (List.replicate 4 9 ++ 2 :: List.replicate 94 0) _ (by decide)

/-- C3 counterexample: a 42-byte buffer (envelope plus fixed body, nothing
after) has zero bytes remaining after the fixed body and a declared key-length
of zero — remaining size exactly equals the declared key-length, yet the
captured key is empty, so the decoded key is not non-empty as claimed. -/
theorem c3_zero_keylength_gives_empty_key :
    (RC4EAPOL.decode (List.replicate 42 0)).map RC4EAPOL.key = .ok []
    ∧ ((List.replicate 42 0 : List Nat).drop 42).length
        = rc4DeclaredKeyLength (List.replicate 42 0)
    ∧ ([] : List Nat) = (List.replicate 42 0 : List Nat).drop 42 := by
  refine ⟨by decide, by decide, by decide⟩

/-- Helper: one unfolding step of the option-parsing loop on a non-empty region
with a non-zero iteration bound. -/
lemma parseOptionsF_cons (fuel b : Nat) (rest : List Nat) :
    parseOptionsF (fuel + 1) (b :: rest)
      = (if b = 0 then .ok []
         else if b % 32 ∈ multibyteOptionNumbers then
           match rest with
           | [] => .error ipNotEnoughMsg
           | l :: rest2 =>
             if l = 0 then .error ipNotEnoughMsg
             else if 0 < l - 1 then
               if rest2.length + 1 < l - 1 then .error ipNotEnoughMsg
               else
                 match parseOptionsF fuel (rest2.drop (l - 1 - 1)) with
                 | .error e => .error e
                 | .ok opts =>
                   .ok (⟨b / 128 % 2, b / 32 % 4, b % 32, l :: rest2.take (l - 1 - 1)⟩ :: opts)
             else
               match parseOptionsF fuel (l :: rest2) with
               | .error e => .error e
               | .ok opts => .ok (⟨b / 128 % 2, b / 32 % 4, b % 32, []⟩ :: opts)
         else
           match parseOptionsF fuel rest with
           | .error e => .error e
           | .ok opts => .ok (⟨b / 128 % 2, b / 32 % 4, b % 32, []⟩ :: opts)) := rfl

/-- Helper: the loop at its adequate bound on a non-empty region. -/
lemma parseOptions_cons (b : Nat) (rest : List Nat) :
    parseOptions (b :: rest) = parseOptionsF (rest.length + 1) (b :: rest) := rfl

/-- Helper: a multibyte option whose length byte claims more data bytes than
remain (counted from the length byte) is rejected. -/
lemma parseOptions_overflow (b l : Nat) (rest2 : List Nat)
    (hb : b ≠ 0) (hmb : b % 32 ∈ multibyteOptionNumbers)
    (hov : (l :: rest2).length < l - 1) :
    parseOptions (b :: l :: rest2) = .error ipNotEnoughMsg := by
  have hl : l ≠ 0 := by simp at hov; omega
  have hds : 0 < l - 1 := by simp at hov; omega
  have hrej : rest2.length + 1 < l - 1 := by simpa using hov
  rw [parseOptions_cons, show (l :: rest2).length = rest2.length + 1 from rfl,
      parseOptionsF_cons]
  simp [hb, hmb, hl, hds, hrej]

/-- Helper: an accepted multibyte option captures exactly `L - 1` bytes,
starting at its length byte. -/
lemma parseOptions_capture (b l : Nat) (rest2 : List Nat) (opt : IPOption) (opts : List IPOption)
    (hmb : b % 32 ∈ multibyteOptionNumbers)
    (h : parseOptions (b :: l :: rest2) = .ok (opt :: opts)) :
    opt.optional_data = (l :: rest2).take (l - 1)
    ∧ opt.optional_data.length = l - 1 := by
  rw [parseOptions_cons, show (l :: rest2).length = rest2.length + 1 from rfl,
      parseOptionsF_cons] at h
  by_cases hb : b = 0
  · rw [if_pos hb] at h
    simp at h
  · rw [if_neg hb, if_pos hmb] at h
    by_cases hl : l = 0
    · simp [hl] at h
    · by_cases hds : 0 < l - 1
      · by_cases hrej : rest2.length + 1 < l - 1
        · simp [hl, hds, hrej] at h
        · rcases hc : parseOptionsF (rest2.length + 1) (rest2.drop (l - 1 - 1)) with e | opts2
          · simp [hl, hds, hrej, hc] at h
          · simp only [if_neg hl, if_pos hds, if_neg hrej, hc] at h
            simp only [Except.ok.injEq, List.cons.injEq] at h
            obtain ⟨hopt, _⟩ := h
            subst hopt
            have hlen : l - 1 - 1 ≤ rest2.length := by omega
            constructor
            · have : (l :: rest2).take (l - 1) = l :: rest2.take (l - 1 - 1) := by
                obtain ⟨n, hn⟩ : ∃ n, l - 1 = n + 1 := ⟨l - 1 - 1, by omega⟩
                rw [hn, List.take_succ_cons]
                simp
              rw [this]
            · simp [List.length_take, Nat.min_eq_left hlen]
              omega
      · have hl1 : l = 1 := by omega
        rcases hc : parseOptionsF (rest2.length + 1) (l :: rest2) with e | opts2
        · simp [hl, hds, hc] at h
        · simp only [if_neg hl, if_neg hds, hc] at h
          simp only [Except.ok.injEq, List.cons.injEq] at h
          obtain ⟨hopt, _⟩ := h
          subst hopt
          simp [hl1]

/-- Helper: every option captured by the parsing loop holds a contiguous slice
of the region it was parsed from — the loop never reads outside its region. -/
lemma parseOptionsF_data_infix : ∀ (fuel : Nat) (region : List Nat) (opts : List IPOption),
    parseOptionsF fuel region = .ok opts →
    ∀ opt ∈ opts, ∃ pre suf, region = pre ++ opt.optional_data ++ suf := by
  intro fuel
  induction fuel with
  | zero =>
      intro region opts h opt hm
      cases region with
      | nil => simp [parseOptionsF] at h; subst h; simp at hm
      | cons b rest => simp [parseOptionsF] at h; subst h; simp at hm
  | succ fuel ih =>
      intro region opts h opt hm
      cases region with
      | nil => simp [parseOptionsF] at h; subst h; simp at hm
      | cons b rest =>
        rw [parseOptionsF_cons] at h
        by_cases hb : b = 0
        · rw [if_pos hb] at h
          simp at h; subst h; simp at hm
        · rw [if_neg hb] at h
          by_cases hmb : b % 32 ∈ multibyteOptionNumbers
          · rw [if_pos hmb] at h
            cases rest with
            | nil => simp at h
            | cons l rest2 =>
              by_cases hl : l = 0
              · simp [hl] at h
              · by_cases hds : 0 < l - 1
                · by_cases hrej : rest2.length + 1 < l - 1
                  · simp [hl, hds, hrej] at h
                  · rcases hc : parseOptionsF fuel (rest2.drop (l - 1 - 1)) with e | opts2
                    · simp [hl, hds, hrej, hc] at h
                    · simp only [if_neg hl, if_pos hds, if_neg hrej, hc] at h
                      simp only [Except.ok.injEq] at h
                      subst h
                      rcases List.mem_cons.mp hm with hm1 | hm2
                      · subst hm1
                        refine ⟨[b], rest2.drop (l - 1 - 1), ?_⟩
                        simp [List.take_append_drop]
                      · obtain ⟨pre, suf, hps⟩ := ih _ _ hc opt hm2
                        refine ⟨b :: l :: (rest2.take (l - 1 - 1) ++ pre), suf, ?_⟩
                        have hsplit : rest2 = rest2.take (l - 1 - 1) ++ rest2.drop (l - 1 - 1) :=
                          (List.take_append_drop _ _).symm
                        conv_lhs => rw [hsplit, hps]
                        simp
                · rcases hc : parseOptionsF fuel (l :: rest2) with e | opts2
                  · simp [hl, hds, hc] at h
                  · simp only [if_neg hl, if_neg hds, hc] at h
                    simp only [Except.ok.injEq] at h
                    subst h
                    rcases List.mem_cons.mp hm with hm1 | hm2
                    · subst hm1
                      exact ⟨[], b :: l :: rest2, by simp⟩
                    · obtain ⟨pre, suf, hps⟩ := ih _ _ hc opt hm2
                      exact ⟨b :: pre, suf, by rw [hps]; simp⟩
          · rw [if_neg hmb] at h
            rcases hc : parseOptionsF fuel rest with e | opts2
            · simp [hc] at h
            · simp only [hc] at h
              simp only [Except.ok.injEq] at h
              subst h
              rcases List.mem_cons.mp hm with hm1 | hm2
              · subst hm1
                exact ⟨[], b :: rest, by simp⟩
              · obtain ⟨pre, suf, hps⟩ := ih _ _ hc opt hm2
                exact ⟨b :: pre, suf, by rw [hps]; simp⟩

/-- Helper: every option of a successfully decoded IP unit holds a contiguous
slice of the input buffer — decode never captures bytes from outside it. -/
lemma decode_options_infix (buffer : List Nat) (ip : IP) (h : IP.decode buffer = .ok ip) :
    ∀ opt ∈ ip.options, ∃ pre suf, buffer = pre ++ opt.optional_data ++ suf := by
  intro opt hm
  unfold IP.decode at h
  rcases hc : IP.checkFixedHeader buffer with e | hdr <;> rw [hc] at h
  · simp at h
  · dsimp only at h
    rcases hp : parseOptions ((buffer.drop 20).take (hdr.ihl * 4 - 20)) with e | opts <;>
      rw [hp] at h
    · simp at h
    · simp only [Except.ok.injEq] at h
      have hopts : ip.options = opts := by rw [← h]
      rw [hopts] at hm
      obtain ⟨pre, suf, hps⟩ := parseOptionsF_data_infix _ _ _ hp opt hm
      refine ⟨buffer.take 20 ++ pre, suf ++ (buffer.drop 20).drop (hdr.ihl * 4 - 20), ?_⟩
      have h1 : buffer = buffer.take 20 ++ buffer.drop 20 := (List.take_append_drop _ _).symm
      have h2 : buffer.drop 20
          = (buffer.drop 20).take (hdr.ihl * 4 - 20)
              ++ (buffer.drop 20).drop (hdr.ihl * 4 - 20) :=
        (List.take_append_drop _ _).symm
      conv_lhs => rw [h1, h2, hps]
      simp

/-- C2: a multibyte option whose length byte claims more data bytes than remain
before the computed header boundary makes the option parse fail with the decode
error, and an option-region error is the error of the whole decode (no unit is
returned); an accepted multibyte option with length byte `L` captures exactly
`L - 1` bytes (starting at the length byte); and every option captured by a
successful decode is a contiguous slice of the input buffer, so no byte outside
the buffer is ever read into an option. -/
theorem c2_option_bounds :
    (∀ b l rest2, b ≠ 0 → b % 32 ∈ multibyteOptionNumbers → (l :: rest2).length < l - 1 →
        parseOptions (b :: l :: rest2) = .error ipNotEnoughMsg)
    ∧ (∀ buffer hdr e, IP.checkFixedHeader buffer = .ok hdr →
        parseOptions ((buffer.drop 20).take (hdr.ihl * 4 - 20)) = .error e →
        IP.decode buffer = .error e)
    ∧ (∀ b l rest2 opt opts, b % 32 ∈ multibyteOptionNumbers →
        parseOptions (b :: l :: rest2) = .ok (opt :: opts) →
        opt.optional_data = (l :: rest2).take (l - 1) ∧ opt.optional_data.length = l - 1)
    ∧ (∀ buffer ip, IP.decode buffer = .ok ip → ∀ opt ∈ ip.options,
        ∃ pre suf, buffer = pre ++ opt.optional_data ++ suf) := by
  refine ⟨parseOptions_overflow, ?_, parseOptions_capture, decode_options_infix⟩
  intro buffer hdr e hchk hopt
  unfold IP.decode
  rw [hchk]
  dsimp only
  rw [hopt]

/-- C2 witness: the region `[130, 5, 1]` (SEC option claiming 4 data bytes with
2 remaining) is rejected; a 24-byte buffer carrying it fails decode whole; the
region `[130, 3, 1, 0]` captures exactly 2 bytes; and the NOOP option of a
decoded 24-byte buffer lies inside that buffer. -/
theorem c2_option_bounds_witness :
    parseOptions [130, 5, 1] = .error ipNotEnoughMsg
    ∧ IP.decode (70 :: (List.replicate 19 0 ++ [130, 5, 1, 0])) = .error ipNotEnoughMsg
    ∧ (⟨1, 0, 2, [3, 1]⟩ : IPOption).optional_data = ([3, 1, 0] : List Nat).take (3 - 1)
    ∧ ∃ pre suf, (70 :: (List.replicate 19 0 ++ [1, 0, 0, 0]) : List Nat)
        = pre ++ (⟨0, 0, 1, []⟩ : IPOption).optional_data ++ suf := by
  refine ⟨c2_option_bounds.1 130 5 [1] (by decide) (by decide) (by decide),
          c2_option_bounds.2.1 (70 :: (List.replicate 19 0 ++ [130, 5, 1, 0]))
            { version := 4, ihl := 6, tos := 0, tot_len := 0, id := 0, frag_off := 0,
              ttl := 0, protocol := 0, check := 0, saddr := 0, daddr := 0 }
            ipNotEnoughMsg (by decide) (by decide),
          (c2_option_bounds.2.2.1 130 3 [1, 0] ⟨1, 0, 2, [3, 1]⟩ []
            (by decide) (by decide)).1,
          c2_option_bounds.2.2.2 (70 :: (List.replicate 19 0 ++ [1, 0, 0, 0]))
            { hdr := { version := 4, ihl := 6, tos := 0, tot_len := 0, id := 0, frag_off := 0,
                       ttl := 0, protocol := 0, check := 0, saddr := 0, daddr := 0 },
              options := [⟨0, 0, 1, []⟩], options_size := 1, padded_options_size := 4,
              inner := none }
            (by decide) ⟨0, 0, 1, []⟩ (by decide)⟩

/-- C3 (amended): for every buffer long enough to hold the envelope and the
stream-cipher fixed body, decode succeeds; when the bytes remaining after the
fixed body exactly equal the declared key-length field the key captures exactly
those bytes (and is non-empty whenever the declared key-length is non-zero),
and when the remaining size differs from the declared key-length the key is
left empty with no error. -/
theorem c3_rc4_key_capture :
    ∀ buffer : List Nat, 42 ≤ buffer.length →
      (RC4EAPOL.decode buffer).isOk = true
      ∧ (∀ r, RC4EAPOL.decode buffer = .ok r →
          ((buffer.drop 42).length = rc4DeclaredKeyLength buffer →
              r.key = buffer.drop 42
              ∧ (rc4DeclaredKeyLength buffer ≠ 0 → r.key ≠ []))
          ∧ ((buffer.drop 42).length ≠ rc4DeclaredKeyLength buffer → r.key = [])) := by
  intro buffer h42
  have h5 : ¬ buffer.length < 5 := by omega
  have h37 : ¬ (buffer.drop 5).length < 37 := by simp [List.length_drop]; omega
  have hkl : (parseRC4Header ((buffer.drop 5).take 37)).key_length
      = rc4DeclaredKeyLength buffer := by
    simp [parseRC4Header, rc4DeclaredKeyLength, List.take_take]
  have hdd : (buffer.drop 5).drop 37 = buffer.drop 42 := by
    simp [List.drop_drop]
  constructor
  · have h37n : ¬ (buffer.length - 5 < 37) := by omega
    simp [RC4EAPOL.decode, h5, h37n, Except.isOk, Except.toBool]
  · intro r hr
    simp only [RC4EAPOL.decode] at hr
    rw [if_neg h5, if_neg h37] at hr
    simp only [Except.ok.injEq] at hr
    have hkey := congrArg RC4EAPOL.key hr
    dsimp only at hkey
    rw [hdd, hkl] at hkey
    constructor
    · intro heq
      rw [if_pos heq] at hkey
      refine ⟨hkey.symm, fun hne hnil => hne ?_⟩
      rw [hnil] at hkey
      rw [← heq, hkey]
      simp
    · intro hne
      rw [if_neg hne] at hkey
      exact hkey.symm

/-- C3 witness: a buffer declaring key-length 3 with exactly 3 bytes after the
fixed body decodes to the non-empty key equal to those bytes. -/
theorem c3_rc4_key_capture_witness :
    ∃ r : RC4EAPOL,
      RC4EAPOL.decode (List.replicate 5 0 ++ [0, 3] ++ List.replicate 35 0 ++ [7, 8, 9]) = .ok r
      ∧ r.key = (List.replicate 5 0 ++ [0, 3] ++ List.replicate 35 0 ++ [7, 8, 9]).drop 42
      ∧ r.key ≠ [] := by
  refine ⟨{ env := { version := 0, packet_type := 0, length := 0, ptype := 0 },
            body := { key_length := 3, replay_counter := 0, key_iv := List.replicate 16 0,
                      key_index := 0, key_flag := 0, key_sign := List.replicate 16 0 },
            key := [7, 8, 9] }, by decide, ?_, ?_⟩
  · exact (((c3_rc4_key_capture
        (List.replicate 5 0 ++ [0, 3] ++ List.replicate 35 0 ++ [7, 8, 9])
        (by decide)).2 _ (by decide)).1 (by decide)).1
  · exact (((c3_rc4_key_capture
        (List.replicate 5 0 ++ [0, 3] ++ List.replicate 35 0 ++ [7, 8, 9])
        (by decide)).2 _ (by decide)).1 (by decide)).2 (by decide)

/-- C4 (amended): for every robust-security-network unit with a non-empty
trailing block, a raw key of size below 2^16 serializes with key-length 32,
WPA-length equal to the key size and no framing prefix before the key bytes;
a serialized information element of size S below 256 serializes with
key-length 0, WPA-length S + 2, and the two bytes immediately before the data
equal to the fixed element tag and S (the element-length byte stores the size
modulo 256, which is what forces the bounds). -/
theorem c4_rsn_trailing_block :
    ∀ (r0 : RSNEAPOL) (k s : List Nat),
      k ≠ [] → k.length < 65536 → s ≠ [] → s.length < 256 →
      (((r0.setKey k).write_body).1.body.key_length = 32
        ∧ ((r0.setKey k).write_body).1.body.wpa_length = k.length
        ∧ ((r0.setKey k).write_body).2
            = serializeRSNHeader ((r0.setKey k).write_body).1.body ++ k)
      ∧ (((r0.rsn_information s).write_body).1.body.key_length = 0
        ∧ ((r0.rsn_information s).write_body).1.body.wpa_length = s.length + 2
        ∧ ((r0.rsn_information s).write_body).2
            = serializeRSNHeader ((r0.rsn_information s).write_body).1.body
                ++ ([dot11RSN, s.length] ++ s)) := by
  intro r0 k s hk hk2 hs hs2
  have hkne : k.length ≠ 0 := by simpa using hk
  have hsne : s.length ≠ 0 := by simpa using hs
  have hkm : k.length % 65536 = k.length := Nat.mod_eq_of_lt hk2
  have hsm : s.length % 256 = s.length := Nat.mod_eq_of_lt hs2
  have hsm2 : (s.length + 2) % 65536 = s.length + 2 := Nat.mod_eq_of_lt (by omega)
  simp [RSNEAPOL.write_body, RSNEAPOL.setKey, RSNEAPOL.rsn_information,
        hkne, hsne, hkm, hsm, hsm2]

/-- C4 witness: a five-byte raw key gives key-length 32 and WPA-length 5; a
three-byte information element gives key-length 0 and WPA-length 5. -/
theorem c4_rsn_trailing_block_witness :
    ((RSNEAPOL.defaultFields.setKey [9, 9, 9, 9, 9]).write_body).1.body.key_length = 32
    ∧ ((RSNEAPOL.defaultFields.setKey [9, 9, 9, 9, 9]).write_body).1.body.wpa_length = 5
    ∧ ((RSNEAPOL.defaultFields.rsn_information [6, 6, 6]).write_body).1.body.key_length = 0
    ∧ ((RSNEAPOL.defaultFields.rsn_information [6, 6, 6]).write_body).1.body.wpa_length = 5 :=
  ⟨(c4_rsn_trailing_block RSNEAPOL.defaultFields [9, 9, 9, 9, 9] [6, 6, 6]
      (by decide) (by decide) (by decide) (by decide)).1.1,
   (c4_rsn_trailing_block RSNEAPOL.defaultFields [9, 9, 9, 9, 9] [6, 6, 6]
      (by decide) (by decide) (by decide) (by decide)).1.2.1,
   (c4_rsn_trailing_block RSNEAPOL.defaultFields [9, 9, 9, 9, 9] [6, 6, 6]
      (by decide) (by decide) (by decide) (by decide)).2.1,
   (c4_rsn_trailing_block RSNEAPOL.defaultFields [9, 9, 9, 9, 9] [6, 6, 6]
      (by decide) (by decide) (by decide) (by decide)).2.2.1⟩

/-- C4 counterexample: for a serialized information element of size S = 256,
the element-length byte written after the fixed tag is `S mod 256 = 0`, not S —
the write truncates the key size to one byte — so the two trailing framing
bytes are `[48, 0]` rather than the claimed tag and 256. -/
theorem c4_element_length_byte_truncates :
    (((RSNEAPOL.defaultFields.rsn_information (List.replicate 256 7)).write_body).2.drop 94).take 2
        = [dot11RSN, 0]
    ∧ (List.replicate 256 (7 : Nat)).length = 256
    ∧ [dot11RSN, 0] ≠ [dot11RSN, 256] := by
  refine ⟨by set_option maxRecDepth 4000 in decide, by decide, by decide⟩

/-- Helper: the serialized fixed header is 20 bytes. -/
lemma length_serializeIPHeader (h : IPHeader) : (serializeIPHeader h).length = 20 := by
  simp [serializeIPHeader, be16, be32]

/-- Helper: overwriting a window inside a list places exactly those bytes at
that offset. -/
lemma listSet_window (l v : List Nat) (i : Nat) (h : i ≤ l.length) :
    ((listSet l i v).drop i).take v.length = v := by
  unfold listSet
  have hl : (l.take i).length = i := by
    simp [List.length_take, Nat.min_eq_left h]
  rw [List.append_assoc, List.drop_left' hl, List.take_left]

/-- Helper: the checksum window of the output buffer. -/
lemma listSet_window_be16 (l : List Nat) (x : Nat) (h : 10 ≤ l.length) :
    ((listSet l 10 (be16 x)).drop 10).take 2 = be16 x :=
  listSet_window l (be16 x) 10 h

/-- C10: serializing with a parent a header whose stored checksum is zero
writes the folded, complemented checksum of the header+options region into the
checksum bytes of the output buffer only, while the in-memory checksum field is
(re)set to zero, and of the in-memory header fields only total-length,
header-length-in-words and protocol are recomputed — version, tos, id,
frag_off, ttl, the two addresses, the option list, both option-size fields and
the nested unit are unchanged. -/
theorem c10_serialize_frame_effect :
    ∀ (ip : IP) (total_sz : Nat), ip.hdr.check = 0 →
      ((ip.write_serialization total_sz true).1.hdr.check = 0
      ∧ (ip.write_serialization total_sz true).1.hdr.version = ip.hdr.version
      ∧ (ip.write_serialization total_sz true).1.hdr.tos = ip.hdr.tos
      ∧ (ip.write_serialization total_sz true).1.hdr.id = ip.hdr.id
      ∧ (ip.write_serialization total_sz true).1.hdr.frag_off = ip.hdr.frag_off
      ∧ (ip.write_serialization total_sz true).1.hdr.ttl = ip.hdr.ttl
      ∧ (ip.write_serialization total_sz true).1.hdr.saddr = ip.hdr.saddr
      ∧ (ip.write_serialization total_sz true).1.hdr.daddr = ip.hdr.daddr
      ∧ (ip.write_serialization total_sz true).1.options = ip.options
      ∧ (ip.write_serialization total_sz true).1.options_size = ip.options_size
      ∧ (ip.write_serialization total_sz true).1.padded_options_size = ip.padded_options_size
      ∧ (ip.write_serialization total_sz true).1.inner = ip.inner
      ∧ (ip.write_serialization total_sz true).1.hdr.tot_len = total_sz % 65536
      ∧ (ip.write_serialization total_sz true).1.hdr.ihl = ip.header_size / 4 % 16
      ∧ ((ip.write_serialization total_sz true).2.drop 10).take 2
          = be16 (65535 - foldCarries (do_checksum
              ((serializeIPHeader (ip.write_serialization total_sz true).1.hdr
                  ++ writeOptionsBytes ip.options
                  ++ List.replicate (ip.padded_options_size - ip.options_size) 0).take
                (20 + ip.padded_options_size))))) := by
  intro ip total_sz h0
  obtain ⟨⟨v, ih, tos, tl, idf, fo, ttl, pr, ck, sa, da⟩, opts, osz, posz, inner⟩ := ip
  simp only [IP.hdr] at h0
  subst h0
  cases inner with
  | none =>
      refine ⟨?_, ?_, ?_, ?_, ?_, ?_, ?_, ?_, ?_, ?_, ?_, ?_, ?_, ?_, ?_⟩ <;>
        first
          | (simp [IP.write_serialization, IP.header_size]; done)
          | (simp [IP.write_serialization, IP.header_size]
             exact listSet_window_be16 _ _ (by simp [length_serializeIPHeader]; omega))
  | some p =>
      refine ⟨?_, ?_, ?_, ?_, ?_, ?_, ?_, ?_, ?_, ?_, ?_, ?_, ?_, ?_, ?_⟩ <;>
        first
          | (simp [IP.write_serialization, IP.header_size]; done)
          | (simp [IP.write_serialization, IP.header_size]
             exact listSet_window_be16 _ _ (by simp [length_serializeIPHeader]; omega))

/-- C10 witness: serializing the default-initialized header (stored checksum
zero) with a parent keeps the in-memory checksum zero and leaves ttl and id
untouched. -/
theorem c10_serialize_frame_effect_witness :
    (IP.defaultFields.write_serialization 20 true).1.hdr.check = 0
    ∧ (IP.defaultFields.write_serialization 20 true).1.hdr.ttl = IP.defaultFields.hdr.ttl
    ∧ (IP.defaultFields.write_serialization 20 true).1.hdr.id = IP.defaultFields.hdr.id :=
  ⟨(c10_serialize_frame_effect IP.defaultFields 20 rfl).1,
   (c10_serialize_frame_effect IP.defaultFields 20 rfl).2.2.2.2.2.1,
   (c10_serialize_frame_effect IP.defaultFields 20 rfl).2.2.2.1⟩

end Tins
